import Mathlib

/-!
Verification of the omi-notion-semantic-layer quality-scoring and
deduplication core.

A shallow embedding, in Lean 4, of the pure computational core of the
`omi-notion-semantic-layer` repository:

* `src/models/insight.py`   — the value types (`Entity`, `Classification`,
  `SentimentResult`, `QualityScore`, `ProcessedInsight`),
* `src/quality_filter.py`   — the `QualityFilter` scoring engine,
* `src/utils/deduplication.py` — the `DuplicateDetector`,
* `src/enrichment.py`       — the `EnrichmentModule`.

Modelling conventions:

* Python `float` arithmetic is idealised as exact arithmetic: all quantities
  that the source computes with rational operations are modelled in `ℚ`; the
  cosine similarity, whose magnitudes are square roots, is modelled in `ℝ`
  with `Real.sqrt`.
* Python strings are Lean `String`s, processed on their underlying character
  lists.  `str.lower` is modelled with `Char.toLower` (ASCII case mapping),
  `\s` with `Char.isWhitespace`, and `\w` with ASCII alphanumerics plus
  underscore.
* `hashlib.sha256` over the normalised text is idealised as an injective
  hash: the model's content hash *is* the normalised text.
* `re.findall` counting over the fixed lexicons of the quality filter is
  modelled by a small pattern matcher (`Pat`) that scans left to right,
  matching word-bounded alternations non-overlappingly, mirroring the
  regex lexicons of the source.
* Fields of `ProcessedInsight` that none of the embedded operations consume
  (timestamps, participants, workflow status, processing metadata) are
  omitted from the record.
-/

/-! ## Character and string utilities (Python `str` operations) -/

/-- Python `\s` (whitespace class), restricted to the ASCII whitespace that
`Char.isWhitespace` recognises. -/
def isSpaceChar (c : Char) : Bool :=
  c.isWhitespace

/-- Python `\w` (word character): ASCII letters and digits plus underscore. -/
def isWordChar (c : Char) : Bool :=
  c.isAlphanum || c = '_'

/-- Python `str.lower`, character by character. -/
def lowerStr (s : String) : String :=
  ⟨s.data.map Char.toLower⟩

/-- Replace every maximal run of whitespace by a single space, modelling
`re.sub(r"\s+", " ", text)`. -/
def collapseWs : List Char → List Char
  | [] => []
  | [c] => if isSpaceChar c then [' '] else [c]
  | c :: c' :: cs =>
    if isSpaceChar c && isSpaceChar c' then collapseWs (c' :: cs)
    else (if isSpaceChar c then ' ' else c) :: collapseWs (c' :: cs)

/-- Python `str.strip()`: drop leading and trailing whitespace. -/
def stripWs (cs : List Char) : List Char :=
  ((cs.dropWhile isSpaceChar).reverse.dropWhile isSpaceChar).reverse

/-- Split on runs of whitespace, discarding empty pieces: Python
`str.split()` with no argument.  `cur` accumulates the current word in
reverse. -/
def splitWsAux : List Char → List Char → List String
  | [], cur => if cur.isEmpty then [] else [⟨cur.reverse⟩]
  | c :: cs, cur =>
    if isSpaceChar c then
      if cur.isEmpty then splitWsAux cs [] else (⟨cur.reverse⟩ : String) :: splitWsAux cs []
    else splitWsAux cs (c :: cur)

/-- Python `text.split()`. -/
def splitWs (s : String) : List String :=
  splitWsAux s.data []


/-! ## Data model (`src/models/insight.py`) -/

/-- `ContentCategory` — categories for classifying transcript content. -/
inductive ContentCategory where
  | action_item
  | insight
  | decision
  | question
  | discussion
  | knowledge
  | idea
  | meeting
deriving DecidableEq

/-- The string value of a `ContentCategory` (Python enum `.value`). -/
def ContentCategory.value : ContentCategory → String
  | .action_item => "Action Item"
  | .insight => "Insight"
  | .decision => "Decision"
  | .question => "Question"
  | .discussion => "Discussion"
  | .knowledge => "Knowledge"
  | .idea => "Idea"
  | .meeting => "Meeting"

/-- `EntityType` — types of named entities. -/
inductive EntityType where
  | person
  | organization
  | location
  | date
  | time
  | topic
  | project
  | product
  | event
  | money
  | percent
deriving DecidableEq

/-- `IntentType` — conversational intent. -/
inductive IntentType where
  | informational
  | actionable
  | exploratory
  | collaborative
  | reflective
deriving DecidableEq

/-- The string value of an `IntentType` (Python enum `.value`). -/
def IntentType.value : IntentType → String
  | .informational => "Informational"
  | .actionable => "Actionable"
  | .exploratory => "Exploratory"
  | .collaborative => "Collaborative"
  | .reflective => "Reflective"

/-- `SentimentType`. -/
inductive SentimentType where
  | positive
  | neutral
  | negative
deriving DecidableEq

/-- `UrgencyLevel`. -/
inductive UrgencyLevel where
  | low
  | medium
  | high
  | critical
deriving DecidableEq

/-- `PriorityLevel`. -/
inductive PriorityLevel where
  | low
  | medium
  | high
  | critical
deriving DecidableEq

/-- Numeric rank of a `PriorityLevel`, used to state order comparisons
between priority levels (Low < Medium < High < Critical). -/
def PriorityLevel.rank : PriorityLevel → ℕ
  | .low => 0
  | .medium => 1
  | .high => 2
  | .critical => 3

/-- `Entity` — a named entity extracted from text.  The optional character
spans and the metadata dict of the source are not consumed by any embedded
operation and are omitted. -/
structure Entity where
  text : String
  type : EntityType
  normalized : Option String := none
  confidence : ℚ := 1
deriving DecidableEq

/-- `Classification` — a content classification result. -/
structure Classification where
  category : ContentCategory
  confidence : ℚ
  reasoning : Option String := none
deriving DecidableEq

/-- `SentimentResult` — sentiment analysis result. -/
structure SentimentResult where
  sentiment : SentimentType
  score : ℚ
  confidence : ℚ := 1
  emotional_tone : Option String := none
  urgency : UrgencyLevel := .low
deriving DecidableEq

/-- `QualityScore` — the six quality sub-scores of an insight. -/
structure QualityScore where
  information_density : ℚ := 0
  actionability : ℚ := 0
  novelty : ℚ := 0
  clarity : ℚ := 0
  specificity : ℚ := 0
  temporal_relevance : ℚ := 0
deriving DecidableEq

/-- `QualityScore.total_score` — the weighted total relevance score
(computed field of the source model). -/
def QualityScore.total_score (q : QualityScore) : ℚ :=
  q.information_density * 0.25
    + q.actionability * 0.20
    + q.novelty * 0.20
    + q.clarity * 0.15
    + q.specificity * 0.10
    + q.temporal_relevance * 0.10

/-- `Summary` — generated summaries; only the title is consumed by the
embedded operations. -/
structure Summary where
  title : String
  executive : Option String := none
  detailed : Option String := none
deriving DecidableEq

/-- `ActionItem` — an action item extracted from the transcript.  Only the
count of action items is consumed by the embedded operations; the
description field keeps the record faithful as a value type. -/
structure ActionItem where
  description : String
deriving DecidableEq

/-- `ProcessedInsight` — the insight aggregate.  Timestamps, participants,
workflow status and processing metadata are not consumed by any embedded
operation and are omitted. -/
structure ProcessedInsight where
  transcript_id : String
  classifications : List Classification := []
  primary_category : Option ContentCategory := none
  entities : List Entity := []
  action_items : List ActionItem := []
  sentiment : Option SentimentResult := none
  intent : Option IntentType := none
  quality_score : QualityScore := {}
  summary : Option Summary := none
  tags : List String := []
  original_content : String
deriving DecidableEq

/-- `ProcessedInsight.get_entities_by_type`. -/
def ProcessedInsight.get_entities_by_type
    (i : ProcessedInsight) (t : EntityType) : List Entity :=
  i.entities.filter (fun e => e.type = t)

/-! ### Construction-time validation (pydantic `Field(ge=..., le=...)`)

Pydantic validates field ranges when a model instance is constructed and
raises a `ValidationError` on violation.  Construction is modelled by
functions into `Option`: `none` is the validation error. -/

/-- Construction of an `Entity`, validating `confidence ∈ [0, 1]`
(`Field(ge=0.0, le=1.0)`). -/
def mkEntity (text : String) (type : EntityType) (confidence : ℚ) :
    Option Entity :=
  if 0 ≤ confidence ∧ confidence ≤ 1 then
    some { text := text, type := type, confidence := confidence }
  else none

/-- Construction of a `Classification`, validating `confidence ∈ [0, 1]`. -/
def mkClassification (category : ContentCategory) (confidence : ℚ) :
    Option Classification :=
  if 0 ≤ confidence ∧ confidence ≤ 1 then
    some { category := category, confidence := confidence }
  else none

/-- Construction of a `QualityScore`, validating that each of the six
sub-scores lies in `[0, 10]` (`Field(ge=0.0, le=10.0)` on every field). -/
def mkQualityScore (d a n c s t : ℚ) : Option QualityScore :=
  if (0 ≤ d ∧ d ≤ 10) ∧ (0 ≤ a ∧ a ≤ 10) ∧ (0 ≤ n ∧ n ≤ 10)
      ∧ (0 ≤ c ∧ c ≤ 10) ∧ (0 ≤ s ∧ s ≤ 10) ∧ (0 ≤ t ∧ t ≤ 10) then
    some { information_density := d, actionability := a, novelty := n,
           clarity := c, specificity := s, temporal_relevance := t }
  else none

/-! ## A small matcher for the fixed regex lexicons (`src/quality_filter.py`)

The quality filter counts matches of four compiled regexes, each an
alternation of word-bounded patterns, with `len(regex.findall(text))` under
`re.IGNORECASE`.  `Pat` is the pattern language needed for those lexicons;
`countPat` models the non-overlapping left-to-right `findall` count over the
lower-cased text (case-insensitivity is modelled by lower-casing the input,
so patterns are written in lower case). -/

/-- Patterns occurring in the quality filter's lexicons. -/
inductive Pat where
  /-- never matches (empty alternation) -/
  | fail
  /-- literal text -/
  | lit (s : String)
  /-- concatenation -/
  | seq (p q : Pat)
  /-- alternation `p|q` -/
  | alt (p q : Pat)
  /-- optional `p?` -/
  | opt (p : Pat)
  /-- `c+`: one or more repetitions of a character (greedy) -/
  | plusChar (c : Char)
  /-- a single character of a class, e.g. slash-or-hyphen -/
  | one (f : Char → Bool)
  /-- `[class]+`, greedy, e.g. `\s+`, `\d+`, `\w+` -/
  | oneMore (f : Char → Bool)
  /-- `[class]*`, greedy, e.g. `\s*`, `\w*` -/
  | manyChars (f : Char → Bool)
  /-- `[class]{lo,hi}`, greedy -/
  | range (f : Char → Bool) (lo hi : ℕ)
  /-- `[class]{lo,}`, greedy -/
  | atLeast (f : Char → Bool) (lo : ℕ)

/-- Match a literal character list as an exact first segment, returning the
unconsumed remainder. -/
def matchLit : List Char → List Char → Option (List Char)
  | [], cs => some cs
  | _ :: _, [] => none
  | p :: ps, c :: cs => if p = c then matchLit ps cs else none

/-- Run a pattern at the head of a character list; on success return the
unconsumed remainder.  Greedy, without backtracking into repetitions —
adequate for the filter's lexicons, whose repetitions are always followed by
a character the repeated class excludes (or by a word boundary). -/
def runPat : Pat → List Char → Option (List Char)
  | .fail, _ => none
  | .lit s, cs => matchLit s.data cs
  | .seq p q, cs => (runPat p cs).bind (runPat q)
  | .alt p q, cs => (runPat p cs).orElse (fun _ => runPat q cs)
  | .opt p, cs => ((runPat p cs).orElse (fun _ => some cs))
  | .plusChar ch, cs =>
    match cs with
    | c :: rest => if c = ch then some (rest.dropWhile (· = ch)) else none
    | [] => none
  | .one f, cs =>
    match cs with
    | c :: rest => if f c then some rest else none
    | [] => none
  | .oneMore f, cs =>
    match cs with
    | c :: rest => if f c then some (rest.dropWhile f) else none
    | [] => none
  | .manyChars f, cs => some (cs.dropWhile f)
  | .range f lo hi, cs =>
    let run := cs.takeWhile f
    if lo ≤ run.length then some (cs.drop (min run.length hi)) else none
  | .atLeast f lo, cs =>
    let run := cs.takeWhile f
    if lo ≤ run.length then some (cs.drop run.length) else none

/-- One scanning step: count non-overlapping matches of `p` left to right.
`prevWord` records whether the previous character was a word character (for
the leading `\b` of every lexicon entry: every entry starts with a word
character, so a match may only start where the previous character is not a
word character).  The trailing `\b` is modelled by requiring the remainder
to start with a non-word character (or be empty).  The fuel argument, set to
the length of the list, makes the recursion structural; a match always
consumes at least one character, which the `rest.length ≤ fuel` guard
re-checks defensively. -/
def countPatAux (p : Pat) : ℕ → List Char → Bool → ℕ
  | 0, _, _ => 0
  | _, [], _ => 0
  | fuel + 1, c :: cs, prevWord =>
    let attempt : Option (List Char) :=
      if prevWord then none
      else match runPat p (c :: cs) with
        | some rest =>
          if (rest.isEmpty || !isWordChar (rest.headD ' ')) && rest.length ≤ fuel
          then some rest
          else none
        | none => none
    match attempt with
    | some rest => 1 + countPatAux p fuel rest true
    | none => countPatAux p fuel cs (isWordChar c)

/-- `len(regex.findall(text))` for a lexicon regex compiled with
`re.IGNORECASE`: count non-overlapping matches over the lower-cased text. -/
def countPat (p : Pat) (s : String) : ℕ :=
  countPatAux p s.data.length (s.data.map Char.toLower) false

/-- Alternation of a list of patterns, in order. -/
def altList (ps : List Pat) : Pat :=
  ps.foldr .alt .fail

/-- Alternation of a list of literal words. -/
def altLits (ws : List String) : Pat :=
  altList (ws.map .lit)

/-- `\s+` -/
def wsPlus : Pat := .oneMore isSpaceChar

/-- `\d+` -/
def digitsPlus : Pat := .oneMore Char.isDigit

/-- The noise lexicon (`_noise_patterns`): um+, uh+, ah+, hmm+, yeah+,
okay+, right, so, like, you know, i mean, actually, basically — each
word-bounded.  A trailing `+` on a final character is `lit` of the prefix
followed by `plusChar` of that character. -/
def noisePat : Pat :=
  altList
    [ .seq (.lit "u") (.plusChar 'm')
    , .seq (.lit "u") (.plusChar 'h')
    , .seq (.lit "a") (.plusChar 'h')
    , .seq (.lit "hm") (.plusChar 'm')
    , .seq (.lit "yea") (.plusChar 'h')
    , .seq (.lit "oka") (.plusChar 'y')
    , .lit "right"
    , .lit "so"
    , .lit "like"
    , .lit "you know"
    , .lit "i mean"
    , .lit "actually"
    , .lit "basically" ]

/-- The action-language lexicon (`_action_indicators`). -/
def actionPat : Pat :=
  altList
    [ .lit "need to"
    , .lit "should"
    , .lit "must"
    , .lit "will"
    , .lit "have to"
    , .lit "going to"
    , .seq (.lit "by") (.seq wsPlus (altLits
        ["monday", "tuesday", "wednesday", "thursday", "friday",
         "saturday", "sunday"]))
    , .seq (.lit "by") (.seq wsPlus (.seq (altLits ["next", "this"])
        (.seq wsPlus (altLits ["week", "month"]))))
    , .lit "due"
    , .lit "deadline"
    , .seq (.lit "follow")
        (.seq (.opt (.one (fun c => isSpaceChar c || c = '-'))) (.lit "up"))
    , .seq (.lit "assign") (.manyChars isWordChar)
    , .seq (.lit "action") (.seq wsPlus (.lit "item"))
    , .seq (.lit "to")
        (.seq (.opt (.one (fun c => isSpaceChar c || c = '-'))) (.lit "do"))
    , .lit "task" ]

/-- The temporal lexicon (`_temporal_patterns`). -/
def temporalPat : Pat :=
  altList
    [ altLits ["today", "tomorrow", "yesterday"]
    , .seq (altLits ["this", "next", "last"])
        (.seq wsPlus (altLits ["week", "month", "quarter", "year"]))
    , altLits ["monday", "tuesday", "wednesday", "thursday", "friday",
               "saturday", "sunday"]
    , altLits ["january", "february", "march", "april", "may", "june",
               "july", "august", "september", "october", "november",
               "december"]
    , .seq (.range Char.isDigit 1 2)
        (.seq (.one (fun c => c = '/' || c = '-'))
          (.seq (.range Char.isDigit 1 2)
            (.seq (.one (fun c => c = '/' || c = '-'))
              (.range Char.isDigit 2 4))))
    , altLits ["urgent", "asap", "immediately", "soon"]
    , .seq (.lit "q")
        (.one (fun c => c = '1' || c = '2' || c = '3' || c = '4')) ]

/-- The specificity lexicon (`_specificity_patterns`); the letter class of
the project-code pattern is `[A-Z]{2,}` under `re.IGNORECASE`, i.e. any
letters, matched on the lower-cased text. -/
def specificityPat : Pat :=
  altList
    [ .seq digitsPlus (.seq (.manyChars isSpaceChar)
        (altLits ["percent", "%", "dollars", "$", "hours", "days",
                  "weeks", "months"]))
    , altLits ["specifically", "exactly", "precisely"]
    , .seq (.lit "version") (.seq wsPlus digitsPlus)
    , .seq (.atLeast Char.isAlpha 2)
        (.seq (.opt (.one (fun c => c = '-' || c = '_'))) digitsPlus) ]

/-! ## The quality filter (`src/quality_filter.py`) -/

/-- The `QualityFilter` configuration.  Defaults are the constructor
defaults of the source: `min_relevance_score = 5.0` and
`min_confidence = 0.65` from the settings, `min_content_length = 20`
characters, and a maximal noise fraction of `0.7`
(`max_noise_ratio` in the source). -/
structure QualityFilter where
  min_relevance_score : ℚ := 5
  min_confidence : ℚ := 0.65
  min_content_length : ℕ := 20
  max_noise_frac : ℚ := 0.7

/-- Number of noise matches in a text
(`len(self._noise_regex.findall(text))`). -/
def noiseCount (text : String) : ℕ :=
  countPat noisePat text

/-- `QualityFilter.calculate_noise_ratio`: the fraction of noise words,
`min(1.0, noise_count / len(words))`, and `0.0` for wordless text.
(Source name: `calculate_noise_ratio`.) -/
def QualityFilter.calculate_noise_frac (_qf : QualityFilter) (text : String) : ℚ :=
  let words := splitWs text
  if words = [] then 0
  else min 1 ((noiseCount text : ℚ) / words.length)

/-- The maximal classification confidence, `max(c.confidence for c in l)`;
the source only evaluates it on a non-empty list. -/
def maxConfidence : List Classification → ℚ
  | [] => 0
  | c :: cs => (cs.map Classification.confidence).foldl max c.confidence

/-- `QualityFilter.check_completeness`: collect every failing minimum
standard (content length, presence of classifications, best classification
confidence, summary title) and return `(no issues, issues)`.  The issue
strings stand in for the source's interpolated messages. -/
def QualityFilter.check_completeness (qf : QualityFilter)
    (i : ProcessedInsight) : Bool × List String :=
  let issues : List String :=
    (if i.original_content.length < qf.min_content_length
     then ["Content too short"] else [])
    ++ (if i.classifications = [] then ["No classifications found"] else [])
    ++ (if i.classifications ≠ [] ∧ maxConfidence i.classifications < qf.min_confidence
        then ["Low classification confidence"] else [])
    ++ (if (match i.summary with
            | none => true
            | some s => s.title = "")
        then ["Missing summary title"] else [])
  (issues.isEmpty, issues)

/-- `QualityFilter._score_information_density`. -/
def QualityFilter.score_information_density (_qf : QualityFilter)
    (i : ProcessedInsight) (word_count : ℕ) : ℚ :=
  if word_count = 0 then 0
  else
    let unique_entities :=
      ((i.entities.map (fun e => (lowerStr e.text, e.type))).toFinset).card
    let classification_count := i.classifications.length
    let density_frac :=
      ((unique_entities + classification_count : ℕ) : ℚ) / ((word_count : ℚ) / 10)
    let score := min 10 (density_frac * 5)
    let entity_types := (i.entities.map Entity.type).toFinset
    let type_diversity_bonus := min 2 ((entity_types.card : ℚ) * 0.5)
    min 10 (score + type_diversity_bonus)

/-- `QualityFilter._score_actionability`. -/
def QualityFilter.score_actionability (_qf : QualityFilter)
    (i : ProcessedInsight) (content : String) : ℚ :=
  let score := min 5 ((i.action_items.length : ℚ) * 2)
  let score := score + min 3 ((countPat actionPat content : ℚ) * 0.5)
  let score := score +
    (if i.primary_category = some .action_item ∨ i.primary_category = some .decision
     then 2 else 0)
  let date_entities := i.get_entities_by_type .date
  let score := score +
    (if date_entities ≠ [] then min 1 ((date_entities.length : ℚ) * 0.5) else 0)
  min 10 score

/-- `QualityFilter._score_novelty`. -/
def QualityFilter.score_novelty (_qf : QualityFilter)
    (i : ProcessedInsight) (content : String) : ℚ :=
  let word_count := (splitWs content).length
  let score : ℚ := 5
  let score := if word_count < 10 then score - 2
    else if word_count > 50 then score + 1 else score
  let entity_types := (i.entities.map Entity.type).toFinset
  let score := score + min 2 ((entity_types.card : ℚ) * 0.5)
  let score := if i.classifications.length > 1 then score + 1 else score
  let score := if i.primary_category = some .discussion then score - 1 else score
  let score :=
    if i.primary_category = some .idea ∨ i.primary_category = some .insight
    then score + 1.5 else score
  max 0 (min 10 score)

/-- `QualityFilter._score_clarity`.  `content.split(".")` always yields
`count('.') + 1` pieces, so the `if sentences:` guard of the source is
always taken. -/
def QualityFilter.score_clarity (_qf : QualityFilter)
    (i : ProcessedInsight) (content : String) : ℚ :=
  let score : ℚ := 7
  let sentences := content.data.count '.' + 1
  let word_count := (splitWs content).length
  let avg_sentence_length := (word_count : ℚ) / (max 1 sentences : ℕ)
  let score := if avg_sentence_length > 30 then score - 2
    else if avg_sentence_length < 15 then score + 1 else score
  let noise_matches := noiseCount content
  let score :=
    if word_count > 0 then
      let noise_frac := (noise_matches : ℚ) / word_count
      if noise_frac > 0.1 then score - min 3 (noise_frac * 10) else score
    else score
  let score :=
    (match i.summary with
     | some s => if s.title ≠ "" then score + 1 else score
     | none => score)
  let score :=
    if i.classifications ≠ [] then
      let avg_confidence :=
        (i.classifications.map Classification.confidence).sum
          / i.classifications.length
      if avg_confidence > 0.8 then score + 1
      else if avg_confidence < 0.5 then score - 1 else score
    else score
  max 0 (min 10 score)

/-- `QualityFilter._score_specificity`. -/
def QualityFilter.score_specificity (_qf : QualityFilter)
    (i : ProcessedInsight) (content : String) : ℚ :=
  let score : ℚ := 5
  let score := score + min 3 ((countPat specificityPat content : ℚ) * 1)
  let score := score + min 1 ((i.get_entities_by_type .person).length * (0.3 : ℚ))
  let score := score + min 1 ((i.get_entities_by_type .organization).length * (0.5 : ℚ))
  let score := score + min 1.5 ((i.get_entities_by_type .project).length * (0.75 : ℚ))
  max 0 (min 10 score)

/-- `QualityFilter._score_temporal_relevance`. -/
def QualityFilter.score_temporal_relevance (_qf : QualityFilter)
    (i : ProcessedInsight) (content : String) : ℚ :=
  let score : ℚ := 5
  let score := score + min 3 ((countPat temporalPat content : ℚ) * 0.75)
  let score := score +
    min 2 (((i.get_entities_by_type .date).length
            + (i.get_entities_by_type .time).length : ℕ) * (0.5 : ℚ))
  let score :=
    (match i.sentiment with
     | some s => if s.urgency = .high ∨ s.urgency = .critical then score + 2 else score
     | none => score)
  max 0 (min 10 score)

/-- `QualityFilter.calculate_quality_score`: the all-zero `QualityScore`
for wordless content, otherwise the six component scores. -/
def QualityFilter.calculate_quality_score (qf : QualityFilter)
    (i : ProcessedInsight) : QualityScore :=
  let content := i.original_content
  let word_count := (splitWs content).length
  if word_count = 0 then {}
  else
    { information_density := qf.score_information_density i word_count
      actionability := qf.score_actionability i content
      novelty := qf.score_novelty i content
      clarity := qf.score_clarity i content
      specificity := qf.score_specificity i content
      temporal_relevance := qf.score_temporal_relevance i content }

/-- `QualityFilter.should_sync`: completeness gate, then noise gate, then
relevance gate, mirroring the early returns of the source. -/
def QualityFilter.should_sync (qf : QualityFilter) (i : ProcessedInsight) : Bool :=
  if !(qf.check_completeness i).1 then false
  else if qf.calculate_noise_frac i.original_content > qf.max_noise_frac then false
  else if i.quality_score.total_score < qf.min_relevance_score then false
  else true

/-! ## The duplicate detector (`src/utils/deduplication.py`) -/

/-- The `DuplicateDetector` configuration, with the source's constructor
defaults. -/
structure DuplicateDetector where
  similarity_threshold : ℚ := 0.8
  min_word_overlap : ℚ := 0.6

/-- `DuplicateDetector._normalize_text`: lower-case, collapse whitespace
runs to single spaces, remove every character that is neither a word
character, whitespace, nor an apostrophe, and strip.  (Source name:
`_normalize_text`.) -/
def normalize_text (text : String) : String :=
  ⟨stripWs (((collapseWs (text.data.map Char.toLower)).filter
    (fun c => isWordChar c || isSpaceChar c || c = '\'')))⟩

/-- `DuplicateDetector.calculate_content_hash`: the SHA-256 of the
normalised content, idealised as the injective identity hash on the
normalised text (two contents collide exactly when they normalise
identically). -/
def calculate_content_hash (content : String) : String :=
  normalize_text content

/-- `DuplicateDetector._get_word_set`: the set of words of the normalised
text. -/
def get_word_set (text : String) : Finset String :=
  (splitWs (normalize_text text)).toFinset

/-- `DuplicateDetector.calculate_similarity`: Jaccard similarity of the
word sets, `0.0` when either side has no words. -/
def calculate_similarity (text1 text2 : String) : ℚ :=
  let words1 := get_word_set text1
  let words2 := get_word_set text2
  if words1 = ∅ ∨ words2 = ∅ then 0
  else
    let intersection := (words1 ∩ words2).card
    let union := (words1 ∪ words2).card
    if union > 0 then (intersection : ℚ) / union else 0

/-- The word list (with multiplicity) of the normalised text, as used by
the cosine similarity: `self._normalize_text(text).split()`. -/
def wordList (text : String) : List String :=
  splitWs (normalize_text text)

/-- The dot product of the two term-frequency vectors, summed over all
distinct terms of either text. -/
def tfDot (words1 words2 : List String) : ℕ :=
  ((words1.toFinset ∪ words2.toFinset).sum
    (fun t => words1.count t * words2.count t))

/-- The squared magnitude of a term-frequency vector:
`sum(count ** 2 for count in counter.values())`. -/
def tfMagSq (words : List String) : ℕ :=
  (words.toFinset.sum (fun t => words.count t ^ 2))

/-- `DuplicateDetector.calculate_cosine_similarity`: cosine of the
term-frequency vectors of the normalised word lists, `0.0` when either
side has no words or a magnitude vanishes. -/
noncomputable def calculate_cosine_similarity (text1 text2 : String) : ℝ :=
  let words1 := wordList text1
  let words2 := wordList text2
  if words1 = [] ∨ words2 = [] then 0
  else
    let dot_product := tfDot words1 words2
    let magnitude1 := Real.sqrt (tfMagSq words1 : ℝ)
    let magnitude2 := Real.sqrt (tfMagSq words2 : ℝ)
    if magnitude1 = 0 ∨ magnitude2 = 0 then 0
    else (dot_product : ℝ) / (magnitude1 * magnitude2)

/-- The entity-identity set of an insight: `(lowercased text, type)`
pairs. -/
def entityKeySet (i : ProcessedInsight) : Finset (String × EntityType) :=
  (i.entities.map (fun e => (lowerStr e.text, e.type))).toFinset

/-- `DuplicateDetector.calculate_entity_overlap`: Jaccard similarity of
the entity-identity sets, `0.0` when either side has no entities. -/
def calculate_entity_overlap (insight1 insight2 : ProcessedInsight) : ℚ :=
  let entities1 := entityKeySet insight1
  let entities2 := entityKeySet insight2
  if entities1 = ∅ ∨ entities2 = ∅ then 0
  else
    let intersection := (entities1 ∩ entities2).card
    let union := (entities1 ∪ entities2).card
    if union > 0 then (intersection : ℚ) / union else 0

/-- `DuplicateDetector.is_duplicate`: exact hash match short-circuits to
true; a Jaccard word similarity below `min_word_overlap` short-circuits to
false; otherwise the weighted combination
`0.4 * jaccard + 0.4 * cosine + 0.2 * entity_overlap` is compared against
`similarity_threshold`. -/
def DuplicateDetector.is_duplicate (d : DuplicateDetector)
    (insight1 insight2 : ProcessedInsight) : Prop :=
  let hash1 := calculate_content_hash insight1.original_content
  let hash2 := calculate_content_hash insight2.original_content
  if hash1 = hash2 then True
  else
    let text_similarity :=
      calculate_similarity insight1.original_content insight2.original_content
    if text_similarity < d.min_word_overlap then False
    else
      let cosine_similarity :=
        calculate_cosine_similarity insight1.original_content insight2.original_content
      let entity_overlap := calculate_entity_overlap insight1 insight2
      (text_similarity : ℝ) * 0.4 + cosine_similarity * 0.4
        + (entity_overlap : ℝ) * 0.2 ≥ (d.similarity_threshold : ℝ)

/-- `DuplicateDetector.find_duplicates`: compare an insight against every
other corpus member (skipping identical transcript ids), scoring exact
hash matches `1.0` and near matches by the weighted combination against the
effective threshold, sorted by score descending.  The effective threshold
is `threshold or self.similarity_threshold`, where Python's `or` replaces
both `None` and the falsy `0.0` by the configured default. -/
noncomputable def DuplicateDetector.find_duplicates (d : DuplicateDetector)
    (insight : ProcessedInsight) (existing_insights : List ProcessedInsight)
    (threshold : Option ℚ := none) : List (String × ℝ) :=
  let thr : ℚ :=
    match threshold with
    | none => d.similarity_threshold
    | some t => if t = 0 then d.similarity_threshold else t
  let insight_hash := calculate_content_hash insight.original_content
  let duplicates := existing_insights.filterMap (fun existing =>
    if existing.transcript_id = insight.transcript_id then none
    else
      let existing_hash := calculate_content_hash existing.original_content
      if insight_hash = existing_hash then some (existing.transcript_id, (1 : ℝ))
      else
        let text_sim :=
          calculate_similarity insight.original_content existing.original_content
        if text_sim < d.min_word_overlap then none
        else
          let cosine_sim :=
            calculate_cosine_similarity insight.original_content
              existing.original_content
          let entity_sim := calculate_entity_overlap insight existing
          let combined := (text_sim : ℝ) * 0.4 + cosine_sim * 0.4
            + (entity_sim : ℝ) * 0.2
          if combined ≥ (thr : ℝ) then
            some (existing.transcript_id, combined)
          else none)
  duplicates.mergeSort (fun x y => decide (x.2 ≥ y.2))

open Classical in
/-- The accumulator loop of `DuplicateDetector.deduplicate_list`: skip a
candidate whose content hash was already seen or that is a duplicate of any
already-accepted insight, otherwise accept it and record its hash. -/
noncomputable def dedupAux (d : DuplicateDetector) :
    List ProcessedInsight → List ProcessedInsight → List String →
      List ProcessedInsight
  | [], _, _ => []
  | insight :: rest, unique_insights, seen_hashes =>
    let content_hash := calculate_content_hash insight.original_content
    if content_hash ∈ seen_hashes then
      dedupAux d rest unique_insights seen_hashes
    else if ∃ existing ∈ unique_insights, d.is_duplicate insight existing then
      dedupAux d rest unique_insights seen_hashes
    else
      insight :: dedupAux d rest (unique_insights ++ [insight])
        (seen_hashes ++ [content_hash])

/-- `DuplicateDetector.deduplicate_list`: keep the first occurrence of each
unique insight, dropping exact and near duplicates of already-kept
insights. -/
noncomputable def DuplicateDetector.deduplicate_list (d : DuplicateDetector)
    (insights : List ProcessedInsight) : List ProcessedInsight :=
  dedupAux d insights [] []

/-! ## The enrichment module (`src/enrichment.py`) -/

/-- The `EnrichmentModule` configuration, with the source's constructor
defaults. -/
structure EnrichmentModule where
  max_tags : ℕ := 15
  min_tag_relevance : ℚ := 0.3

/-- The stop-word list (`_stop_words`), excluded from tags. -/
def stop_words : List String :=
  [ "the", "a", "an", "and", "or", "but", "in", "on", "at", "to",
    "for", "of", "with", "by", "from", "as", "is", "was", "are",
    "were", "been", "be", "have", "has", "had", "do", "does", "did",
    "will", "would", "could", "should", "may", "might", "must",
    "shall", "can", "need", "dare", "ought", "used", "it", "its",
    "that", "this", "these", "those", "i", "you", "he", "she", "we",
    "they", "what", "which", "who", "whom", "where", "when", "why",
    "how", "all", "each", "every", "both", "few", "more", "most",
    "other", "some", "such", "no", "nor", "not", "only", "own",
    "same", "so", "than", "too", "very", "just", "also", "now",
    "here", "there", "about", "after", "before", "between", "into",
    "through", "during", "under", "over", "again", "then", "once" ]

/-- ASCII lower-case letter or digit: the characters that survive
`re.sub(r"[^a-z0-9]+", "-", tag)`. -/
def isLowerAlnum (c : Char) : Bool :=
  ('a' ≤ c && c ≤ 'z') || ('0' ≤ c && c ≤ '9')

/-- Replace every maximal run of characters outside `[a-z0-9]` by a single
hyphen: `re.sub(r"[^a-z0-9]+", "-", tag)`. -/
def hyphenate : List Char → List Char
  | [] => []
  | [c] => if isLowerAlnum c then [c] else ['-']
  | c :: c' :: cs =>
    if !isLowerAlnum c && !isLowerAlnum c' then hyphenate (c' :: cs)
    else (if isLowerAlnum c then c else '-') :: hyphenate (c' :: cs)

/-- Python `str.strip("-")`. -/
def stripDashes (cs : List Char) : List Char :=
  ((cs.dropWhile (· = '-')).reverse.dropWhile (· = '-')).reverse

/-- `EnrichmentModule._normalize_tag`: lower-case, strip, collapse runs of
non-alphanumerics into single hyphens, strip hyphens. -/
def normalize_tag (text : String) : String :=
  ⟨stripDashes (hyphenate (stripWs (text.data.map Char.toLower)))⟩

/-- `EnrichmentModule._entity_tag_weight`: the fixed weight table for
entity types (the dictionary covers every type, so the `0.5` fallback of
`dict.get` is never reached). -/
def entity_tag_weight : EntityType → ℚ
  | .project => 1.0
  | .product => 0.9
  | .topic => 0.8
  | .organization => 0.7
  | .person => 0.6
  | .event => 0.6
  | .location => 0.4
  | .date => 0.3
  | .time => 0.2
  | .money => 0.5
  | .percent => 0.3

/-- Maximal runs of word characters, modelling
`re.findall(r"\b\w{3,}\b", ...)` before the length filter: collect the
maximal word-character runs.  `cur` holds the current run in reverse. -/
def wordRunsAux : List Char → List Char → List (List Char)
  | [], cur => if cur.isEmpty then [] else [cur.reverse]
  | c :: cs, cur =>
    if isWordChar c then wordRunsAux cs (c :: cur)
    else if cur.isEmpty then wordRunsAux cs []
    else cur.reverse :: wordRunsAux cs []

/-- `EnrichmentModule._extract_content_tags`: words of the lower-cased
content of at least three characters, scored by term frequency with a
length bonus, stop-word-filtered, kept above the `0.1` cut-off.  Returned
as a first-occurrence-ordered association list (Python dict keyed by the
distinct words). -/
def extract_content_tags (content : String) : List (String × ℚ) :=
  let words := ((wordRunsAux (content.data.map Char.toLower) []).filter
    (fun r => 3 ≤ r.length)).map (fun r => (⟨r⟩ : String))
  let total_words := words.length
  if total_words = 0 then []
  else
    words.dedup.filterMap (fun word =>
      if word ∈ stop_words then none
      else
        let count := words.count word
        let tf_score := (count : ℚ) / total_words
        let length_bonus := min 1 ((word.length : ℚ) / 10)
        let score := tf_score * 10 + length_bonus * 0.3
        if score ≥ 0.1 then some (word, score) else none)

/-- Add `v` to the accumulated score of key `k` in a first-insertion-ordered
association list, modelling `Counter[str]` updates. -/
def bump : List (String × ℚ) → String → ℚ → List (String × ℚ)
  | [], k, v => [(k, v)]
  | (k', v') :: rest, k, v =>
    if k' = k then (k', v' + v) :: rest else (k', v') :: bump rest k v

/-- Tag scores after the primary-category tag of
`EnrichmentModule.generate_tags` (`tag_scores[tag] += 1.0`). -/
def tagScoresCat (i : ProcessedInsight) : List (String × ℚ) :=
  match i.primary_category with
  | some c => bump [] (normalize_tag c.value) 1
  | none => []

/-- Tag scores after adding each classification's category tag
(`+= classification.confidence * 0.5`). -/
def tagScoresClass (i : ProcessedInsight) : List (String × ℚ) :=
  i.classifications.foldl
    (fun acc c => bump acc (normalize_tag c.category.value) (c.confidence * 0.5))
    (tagScoresCat i)

/-- Tag scores after adding each entity's tag, weighted by the entity-type
weight, for normalised entity tags of length at least two. -/
def tagScoresEnt (i : ProcessedInsight) : List (String × ℚ) :=
  i.entities.foldl
    (fun acc e =>
      let tag := normalize_tag e.text
      if tag ≠ "" ∧ 2 ≤ tag.length then
        bump acc tag (e.confidence * entity_tag_weight e.type)
      else acc)
    (tagScoresClass i)

/-- Tag scores after the intent tag (`+= 0.7`). -/
def tagScoresIntent (i : ProcessedInsight) : List (String × ℚ) :=
  match i.intent with
  | some it => bump (tagScoresEnt i) (normalize_tag it.value) 0.7
  | none => tagScoresEnt i

/-- Tag scores after the sentiment tags: `"urgent"` (`+= 0.8`) on high or
critical urgency, and the emotional-tone tag (`+= 0.5`) when a non-empty
tone is present. -/
def tagScoresSent (i : ProcessedInsight) : List (String × ℚ) :=
  match i.sentiment with
  | some s =>
    let l := if s.urgency = .high ∨ s.urgency = .critical
      then bump (tagScoresIntent i) "urgent" 0.8 else tagScoresIntent i
    (match s.emotional_tone with
     | some tone => if tone ≠ "" then bump l (normalize_tag tone) 0.5 else l
     | none => l)
  | none => tagScoresIntent i

/-- The accumulated tag scores of `EnrichmentModule.generate_tags`:
category tags, classification tags, entity tags (weighted by entity type),
intent tag, urgency/emotional-tone tags, and content-derived tags, in the
source's order. -/
def tagScores (i : ProcessedInsight) : List (String × ℚ) :=
  (extract_content_tags i.original_content).foldl
    (fun acc ts => bump acc ts.1 ts.2) (tagScoresSent i)

/-- `EnrichmentModule.generate_tags`: filter the accumulated tag scores by
relevance cut-off, stop words and minimal length, sort by score descending
(stable), and truncate to `max_tags`. -/
def EnrichmentModule.generate_tags (m : EnrichmentModule)
    (i : ProcessedInsight) : List String :=
  let scores := tagScores i
  let filtered := scores.filter
    (fun ts => m.min_tag_relevance ≤ ts.2 ∧ ts.1 ∉ stop_words ∧ 2 ≤ ts.1.length)
  let sorted := filtered.mergeSort (fun x y => decide (x.2 ≥ y.2))
  (sorted.map Prod.fst).take m.max_tags

/-- Does the pattern occur as the first segment of the text?  (Python
`str.startswith`, on character lists.) -/
def startsWithCh : List Char → List Char → Bool
  | [], _ => true
  | _ :: _, [] => false
  | p :: ps, c :: cs => p = c && startsWithCh ps cs

/-- Python's substring containment `keyword in content`. -/
def hasSubstr (sub : List Char) : List Char → Bool
  | [] => startsWithCh sub []
  | c :: cs => startsWithCh sub (c :: cs) || hasSubstr sub cs

/-- The priority-keyword table (`_priority_keywords`), in the source's
iteration order: Critical, High, Medium, Low. -/
def priority_keywords : List (PriorityLevel × List String) :=
  [ (.critical, ["urgent", "critical", "emergency", "asap", "immediately",
                 "blocker", "showstopper", "crisis"])
  , (.high, ["important", "priority", "deadline", "due", "must",
             "required", "essential", "key", "major"])
  , (.medium, ["should", "need", "want", "plan", "schedule"])
  , (.low, ["maybe", "sometime", "eventually", "nice to have",
            "low priority", "when possible"]) ]

/-- Does any keyword of the list occur in the content? -/
def anyKeyword (kws : List String) (content : String) : Bool :=
  kws.any (fun k => hasSubstr k.data content.data)

/-- The keyword contribution of `EnrichmentModule.assign_priority`: the
first tier (scanned Critical, High, Medium, Low) with a keyword present in
the content wins and stops the scan; Critical adds 3, High 2, Medium 1, and
a Low match adds nothing. -/
def keywordScore (content_lower : String) : ℚ :=
  if anyKeyword ((priority_keywords.lookup .critical).getD []) content_lower then 3
  else if anyKeyword ((priority_keywords.lookup .high).getD []) content_lower then 2
  else if anyKeyword ((priority_keywords.lookup .medium).getD []) content_lower then 1
  else 0

/-- The category boost table of `assign_priority` (`dict.get` default 0). -/
def categoryBoost : ContentCategory → ℚ
  | .action_item => 2.0
  | .decision => 1.5
  | .question => 1.0
  | .meeting => 0.5
  | .insight => 0.5
  | _ => 0

/-- The sentiment-urgency boost table of `assign_priority`. -/
def urgencyBoost : UrgencyLevel → ℚ
  | .critical => 3.0
  | .high => 2.0
  | .medium => 1.0
  | .low => 0.0

/-- Map the additive priority score to a `PriorityLevel`. -/
def priorityFromScore (score : ℚ) : PriorityLevel :=
  if score ≥ 6 then .critical
  else if score ≥ 4 then .high
  else if score ≥ 2 then .medium
  else .low

/-- `EnrichmentModule.assign_priority`: additive scoring over priority
keywords, category, sentiment urgency, actionability, date entities and
action items, mapped to a priority level.  (The `if insight.quality_score:`
guard of the source is always taken: a pydantic model instance is truthy
and the field is always populated.) -/
def EnrichmentModule.assign_priority (_m : EnrichmentModule)
    (i : ProcessedInsight) : PriorityLevel :=
  let content_lower := lowerStr i.original_content
  let score := keywordScore content_lower
  let score := score +
    (match i.primary_category with
     | some c => categoryBoost c
     | none => 0)
  let score := score +
    (match i.sentiment with
     | some s => urgencyBoost s.urgency
     | none => 0)
  let score :=
    if i.quality_score.actionability ≥ 8 then score + 1.5
    else if i.quality_score.actionability ≥ 6 then score + 0.75
    else score
  let date_entities := i.get_entities_by_type .date
  let score := score +
    (if date_entities ≠ [] then min 1.5 ((date_entities.length : ℚ) * 0.5) else 0)
  let score := score +
    (if i.action_items ≠ [] then min 2 ((i.action_items.length : ℚ) * 0.5) else 0)
  priorityFromScore score

/-! ## Concrete instances used by the witnesses and counterexamples -/

/-- A `DuplicateDetector` with the default thresholds. -/
def ddDefault : DuplicateDetector := {}

/-- A `QualityFilter` with the default thresholds. -/
def qfDefault : QualityFilter := {}

/-- An `EnrichmentModule` with the default configuration. -/
def emDefault : EnrichmentModule := {}

/-- Ten one-letter words; already in normalised form. -/
def dupContentA : String := "a b c d e f g h i j"

/-- Ten one-letter words sharing nine with `dupContentA`. -/
def dupContentB : String := "a b c d e f g h i k"

/-- A project entity shared by `exA` and `exB`. -/
def dupEntity : Entity :=
  { text := "Alpha", type := .project, confidence := 1 }

/-- An insight with the content of `exA` but no entities. -/
def exE : ProcessedInsight :=
  { transcript_id := "t0", original_content := dupContentA }

/-- An insight with content `dupContentA` and the shared entity. -/
def exA : ProcessedInsight :=
  { transcript_id := "t1", original_content := dupContentA,
    entities := [dupEntity] }

/-- An insight with content `dupContentB` and the shared entity. -/
def exB : ProcessedInsight :=
  { transcript_id := "t2", original_content := dupContentB,
    entities := [dupEntity] }

/-- An insight whose content is whitespace only. -/
def exBlank : ProcessedInsight :=
  { transcript_id := "w", original_content := "   " }

/-! ## Theorems -/

/-- C1.  For every `QualityScore` whose six sub-scores each lie in
`[0, 10]`, `total_score` equals
`0.25*information_density + 0.20*actionability + 0.20*novelty
+ 0.15*clarity + 0.10*specificity + 0.10*temporal_relevance`, and
`total_score` lies in `[0, 10]`. -/
theorem total_score_formula_and_bounds (q : QualityScore)
    (h : (0 ≤ q.information_density ∧ q.information_density ≤ 10)
      ∧ (0 ≤ q.actionability ∧ q.actionability ≤ 10)
      ∧ (0 ≤ q.novelty ∧ q.novelty ≤ 10)
      ∧ (0 ≤ q.clarity ∧ q.clarity ≤ 10)
      ∧ (0 ≤ q.specificity ∧ q.specificity ≤ 10)
      ∧ (0 ≤ q.temporal_relevance ∧ q.temporal_relevance ≤ 10)) :
    q.total_score = 0.25 * q.information_density + 0.20 * q.actionability
        + 0.20 * q.novelty + 0.15 * q.clarity + 0.10 * q.specificity
        + 0.10 * q.temporal_relevance
      ∧ 0 ≤ q.total_score ∧ q.total_score ≤ 10 := by
  obtain ⟨⟨h1, h2⟩, ⟨h3, h4⟩, ⟨h5, h6⟩, ⟨h7, h8⟩, ⟨h9, h10⟩, ⟨h11, h12⟩⟩ := h
  unfold QualityScore.total_score
  refine ⟨by ring, by nlinarith, by nlinarith⟩

/-- Witness for C1: the theorem applied at the concrete score
`(7.5, 8, 6, 8.5, 7, 9)`. -/
theorem total_score_formula_and_bounds_witness :
    QualityScore.total_score ⟨7.5, 8, 6, 8.5, 7, 9⟩
        = 0.25 * 7.5 + 0.20 * 8 + 0.20 * 6 + 0.15 * 8.5 + 0.10 * 7 + 0.10 * 9
      ∧ 0 ≤ QualityScore.total_score ⟨7.5, 8, 6, 8.5, 7, 9⟩
      ∧ QualityScore.total_score ⟨7.5, 8, 6, 8.5, 7, 9⟩ ≤ 10 :=
  total_score_formula_and_bounds ⟨7.5, 8, 6, 8.5, 7, 9⟩ (by norm_num)

/-- C9.  Constructing an `Entity`, `Classification` or `QualityScore`
with a confidence outside `[0, 1]` (resp. a sub-score outside `[0, 10]`)
fails at construction time; an in-range value is stored unclamped. -/
theorem construction_validates_ranges (t : String) (ty : EntityType)
    (c cc : ℚ) (cat : ContentCategory) (d a n cl sp tr : ℚ) :
    ((mkEntity t ty c).map Entity.confidence
        = if 0 ≤ c ∧ c ≤ 1 then some c else none)
      ∧ ((mkClassification cat cc).map Classification.confidence
        = if 0 ≤ cc ∧ cc ≤ 1 then some cc else none)
      ∧ ((mkQualityScore d a n cl sp tr).isSome
        ↔ (0 ≤ d ∧ d ≤ 10) ∧ (0 ≤ a ∧ a ≤ 10) ∧ (0 ≤ n ∧ n ≤ 10)
            ∧ (0 ≤ cl ∧ cl ≤ 10) ∧ (0 ≤ sp ∧ sp ≤ 10) ∧ (0 ≤ tr ∧ tr ≤ 10)) := by
  refine ⟨?_, ?_, ?_⟩
  · unfold mkEntity; split <;> rfl
  · unfold mkClassification; split <;> rfl
  · unfold mkQualityScore; split <;> simp_all

/-- C5.  For every insight whose content has no words, the quality score
is the all-zero `QualityScore`; no division is attempted (the model is a
total function returning the zero object). -/
theorem calculate_quality_score_of_wordless (qf : QualityFilter)
    (i : ProcessedInsight) (h : splitWs i.original_content = []) :
    qf.calculate_quality_score i
      = { information_density := 0, actionability := 0, novelty := 0,
          clarity := 0, specificity := 0, temporal_relevance := 0 } := by
  simp only [QualityFilter.calculate_quality_score, h, List.length_nil,
    ite_true, if_true]

/-- Witness for C5: whitespace-only content yields the all-zero score. -/
theorem calculate_quality_score_of_wordless_witness :
    splitWs exBlank.original_content = []
      ∧ qfDefault.calculate_quality_score exBlank
        = { information_density := 0, actionability := 0, novelty := 0,
            clarity := 0, specificity := 0, temporal_relevance := 0 } :=
  ⟨by decide, calculate_quality_score_of_wordless qfDefault exBlank (by decide)⟩

/-- C10.  Passing an explicit near-duplicate threshold of `0.0` to
`find_duplicates` behaves identically to passing no threshold: the
falsy-`or` fallback substitutes the detector's configured
`similarity_threshold`, so a zero threshold can never take effect. -/
theorem find_duplicates_zero_threshold_is_default (d : DuplicateDetector)
    (insight : ProcessedInsight) (existing : List ProcessedInsight) :
    d.find_duplicates insight existing (some 0)
      = d.find_duplicates insight existing none := by
  unfold DuplicateDetector.find_duplicates
  norm_num

/-- C8, counterexample.  The claim "for every non-empty string `x`,
`calculate_similarity(x, x) = 1.0`" fails on the non-empty,
punctuation-only string `"!!!"`, which normalises to no words and scores
`0.0` against itself. -/
theorem calculate_similarity_self_counterexample :
    ("!!!" : String) ≠ "" ∧ calculate_similarity "!!!" "!!!" = 0 := by
  constructor
  · decide
  · decide

/-- C8, amended.  For every string `x` with at least one word after
normalisation, `calculate_similarity x x = 1`; and whenever two strings
share no words after normalisation, their similarity is `0`. -/
theorem calculate_similarity_self_and_disjoint :
    (∀ x : String, get_word_set x ≠ ∅ → calculate_similarity x x = 1)
      ∧ ∀ x y : String, get_word_set x ∩ get_word_set y = ∅ →
          calculate_similarity x y = 0 := by
  constructor
  · intro x hx
    have hpos : 0 < (get_word_set x).card :=
      Finset.card_pos.mpr (Finset.nonempty_iff_ne_empty.mpr hx)
    unfold calculate_similarity
    rw [if_neg (by simpa using hx)]
    rw [Finset.inter_self, Finset.union_self]
    rw [if_pos hpos]
    exact div_self (by exact_mod_cast hpos.ne')
  · intro x y hxy
    simp only [calculate_similarity]
    split_ifs with h1 h2
    · rfl
    · rw [hxy]
      simp
    · rfl

/-- Witness for the amended C8: identical non-trivial texts score `1`,
word-disjoint texts score `0`. -/
theorem calculate_similarity_self_and_disjoint_witness :
    calculate_similarity "hello world" "hello world" = 1
      ∧ calculate_similarity "alpha beta" "gamma delta" = 0 :=
  ⟨calculate_similarity_self_and_disjoint.1 "hello world" (by decide),
   calculate_similarity_self_and_disjoint.2 "alpha beta" "gamma delta" (by decide)⟩

/-- The completeness flag of `check_completeness` is precisely emptiness of
the issue list. -/
theorem check_completeness_fst (qf : QualityFilter) (i : ProcessedInsight) :
    (qf.check_completeness i).1 = true ↔ (qf.check_completeness i).2 = [] := by
  unfold QualityFilter.check_completeness
  simp [List.isEmpty_iff]

/-- C4.  `should_sync` is true exactly when all three independent gates
pass: `check_completeness` reports no issues, the noise fraction of the
content is at most `max_noise_ratio`, and the stored
`quality_score.total_score` is at least `min_relevance_score`. -/
theorem should_sync_iff_gates (qf : QualityFilter) (i : ProcessedInsight) :
    qf.should_sync i = true ↔
      (qf.check_completeness i).2 = []
        ∧ qf.calculate_noise_frac i.original_content ≤ qf.max_noise_frac
        ∧ qf.min_relevance_score ≤ i.quality_score.total_score := by
  unfold QualityFilter.should_sync
  split_ifs with h1 h2 h3
  · simp only [Bool.false_eq_true, false_iff]
    rintro ⟨hc, -, -⟩
    rw [Bool.not_eq_true', ← Bool.not_eq_true] at h1
    exact h1 ((check_completeness_fst qf i).mpr hc)
  · simp only [Bool.false_eq_true, false_iff]
    rintro ⟨-, hn, -⟩
    exact absurd h2 (not_lt.mpr hn)
  · simp only [Bool.false_eq_true, false_iff]
    rintro ⟨-, -, hr⟩
    exact absurd h3 (not_lt.mpr hr)
  · simp only [true_iff]
    rw [Bool.not_eq_true] at h1
    refine ⟨(check_completeness_fst qf i).mp (by simpa using h1), not_lt.mp h2, not_lt.mp h3⟩

/-- C2.  `is_duplicate` is true immediately on equal normalised content
hashes (whatever the other fields); otherwise false immediately when the
Jaccard word similarity is below `min_word_overlap`; otherwise true exactly
when `0.4*jaccard + 0.4*cosine + 0.2*entity_overlap` reaches
`similarity_threshold`. -/
theorem is_duplicate_characterisation (d : DuplicateDetector)
    (a b : ProcessedInsight) :
    d.is_duplicate a b ↔
      calculate_content_hash a.original_content
          = calculate_content_hash b.original_content
        ∨ (¬ calculate_similarity a.original_content b.original_content
              < d.min_word_overlap
            ∧ 0.4 * (calculate_similarity a.original_content b.original_content : ℝ)
                + 0.4 * calculate_cosine_similarity a.original_content b.original_content
                + 0.2 * (calculate_entity_overlap a b : ℝ)
              ≥ (d.similarity_threshold : ℝ)) := by
  simp only [DuplicateDetector.is_duplicate]
  split_ifs with h1 h2
  · simp [h1]
  · simp only [h1, false_or, false_iff, not_and]
    intro hn
    exact absurd h2 hn
  · simp only [h1, false_or]
    constructor
    · intro hc
      exact ⟨h2, by linarith⟩
    · rintro ⟨-, hc⟩
      linarith

/-- `priorityFromScore` is monotone with respect to `PriorityLevel.rank`. -/
theorem priorityFromScore_rank_mono {a b : ℚ} (h : a ≤ b) :
    (priorityFromScore a).rank ≤ (priorityFromScore b).rank := by
  unfold priorityFromScore
  split_ifs <;> simp [PriorityLevel.rank] <;> linarith

/-- C7.  `assign_priority` is monotone in sentiment urgency: an insight
whose sentiment urgency is Critical never receives a strictly lower
priority level than the otherwise-identical insight with Low urgency. -/
theorem assign_priority_urgency_monotone (m : EnrichmentModule)
    (i : ProcessedInsight) (s : SentimentResult) :
    (m.assign_priority { i with sentiment := some { s with urgency := .low } }).rank
      ≤ (m.assign_priority
          { i with sentiment := some { s with urgency := .critical } }).rank := by
  simp only [EnrichmentModule.assign_priority, urgencyBoost,
    ProcessedInsight.get_entities_by_type]
  apply priorityFromScore_rank_mono
  split_ifs <;> linarith

/-- Comparison of `UInt32` values is comparison of their numerals. -/
theorem uint32_le_iff (a b : UInt32) : a ≤ b ↔ a.toNat ≤ b.toNat := Iff.rfl

/-- Comparison of characters is comparison of their code points. -/
theorem char_le_iff (a b : Char) : a ≤ b ↔ a.toNat ≤ b.toNat := Iff.rfl

/-- A character is upper case exactly when its code point lies in the ASCII
range 65–90. -/
theorem char_isUpper_iff (c : Char) :
    c.isUpper = true ↔ 65 ≤ c.toNat ∧ c.toNat ≤ 90 := by
  simp only [Char.isUpper, Bool.and_eq_true, decide_eq_true_eq]
  constructor
  · rintro ⟨h1, h2⟩
    exact ⟨(uint32_le_iff _ _).mp h1, (uint32_le_iff _ _).mp h2⟩
  · rintro ⟨h1, h2⟩
    exact ⟨(uint32_le_iff _ _).mpr h1, (uint32_le_iff _ _).mpr h2⟩

/-- Lower-casing never yields an upper-case character. -/
theorem toLower_not_isUpper (c : Char) : (Char.toLower c).isUpper = false := by
  rw [Bool.eq_false_iff]
  intro hup
  rw [char_isUpper_iff] at hup
  simp only [Char.toLower] at hup
  revert hup
  split
  case isTrue h =>
    have hvalid : Nat.isValidChar (c.toNat + 32) := by left; omega
    have hval : (Char.ofNat (c.toNat + 32)).toNat = c.toNat + 32 := by
      simp only [Char.ofNat, Char.ofNatAux, Char.toNat, UInt32.toNat]
      split
      case isTrue hh => rfl
      case isFalse hh => exact absurd hvalid hh
    rw [hval]
    omega
  case isFalse h =>
    intro hup
    exact h ⟨hup.1, hup.2⟩

/-- A lower-case alphanumeric character has its code point in the ASCII
ranges 97–122 or 48–57. -/
theorem isLowerAlnum_range (c : Char) (h : isLowerAlnum c = true) :
    (97 ≤ c.toNat ∧ c.toNat ≤ 122) ∨ (48 ≤ c.toNat ∧ c.toNat ≤ 57) := by
  simp only [isLowerAlnum, Bool.or_eq_true, Bool.and_eq_true,
    decide_eq_true_eq] at h
  have ha : ('a' : Char).toNat = 97 := rfl
  have hz : ('z' : Char).toNat = 122 := rfl
  have h0 : ('0' : Char).toNat = 48 := rfl
  have h9 : ('9' : Char).toNat = 57 := rfl
  rcases h with ⟨h1, h2⟩ | ⟨h1, h2⟩
  · left
    have := (char_le_iff _ _).mp h1
    have := (char_le_iff _ _).mp h2
    omega
  · right
    have := (char_le_iff _ _).mp h1
    have := (char_le_iff _ _).mp h2
    omega

/-- Tag-safe characters are neither upper case nor a space. -/
theorem tagChar_safe (c : Char) (h : isLowerAlnum c = true ∨ c = '-') :
    c.isUpper = false ∧ c ≠ ' ' := by
  rcases h with h | rfl
  · have hr := isLowerAlnum_range c h
    constructor
    · rw [Bool.eq_false_iff]
      intro hu
      rw [char_isUpper_iff] at hu
      omega
    · intro heq
      have : c.toNat = 32 := by rw [heq]; rfl
      omega
  · exact ⟨by decide, by decide⟩

/-- Every character of a hyphenated list is a lower-case alphanumeric or a
hyphen. -/
theorem hyphenate_chars : ∀ cs : List Char, ∀ c ∈ hyphenate cs,
    isLowerAlnum c = true ∨ c = '-' := by
  intro cs
  induction cs with
  | nil => simp [hyphenate]
  | cons a rest ih =>
    cases rest with
    | nil =>
      intro c hc
      simp only [hyphenate] at hc
      by_cases ha : isLowerAlnum a = true
      · rw [if_pos ha] at hc
        simp only [List.mem_singleton] at hc
        exact Or.inl (hc ▸ ha)
      · rw [if_neg ha] at hc
        simp only [List.mem_singleton] at hc
        exact Or.inr hc
    | cons b rest2 =>
      intro c hc
      simp only [hyphenate] at hc
      split at hc
      · exact ih c hc
      · simp only [List.mem_cons] at hc
        rcases hc with rfl | hc
        · split
          case isTrue ha => exact Or.inl ha
          case isFalse ha => exact Or.inr rfl
        · exact ih c hc

/-- Every character of a normalised tag is a lower-case alphanumeric or a
hyphen. -/
theorem normalize_tag_chars (s : String) :
    ∀ c ∈ (normalize_tag s).data, isLowerAlnum c = true ∨ c = '-' := by
  intro c hc
  have h1 : c ∈ hyphenate (stripWs (s.data.map Char.toLower)) := by
    simp only [normalize_tag, stripDashes] at hc
    rw [List.mem_reverse] at hc
    have := (List.dropWhile_sublist (l := ((hyphenate (stripWs (s.data.map Char.toLower))).dropWhile (· = '-')).reverse) (p := (· = '-'))).subset hc
    rw [List.mem_reverse] at this
    exact (List.dropWhile_sublist _).subset this
  exact hyphenate_chars _ c h1

/-- Runs produced by `wordRunsAux` consist of characters satisfying any
predicate that holds on the word characters of the input and on the
accumulator. -/
theorem wordRunsAux_pred (p : Char → Prop) :
    ∀ cs cur : List Char, (∀ c ∈ cs, isWordChar c = true → p c) →
      (∀ c ∈ cur, p c) →
      ∀ r ∈ wordRunsAux cs cur, ∀ c ∈ r, p c := by
  intro cs
  induction cs with
  | nil =>
    intro cur _ hcur r hr c hc
    simp only [wordRunsAux] at hr
    split at hr
    · simp at hr
    · simp only [List.mem_singleton] at hr
      subst hr
      exact hcur c (List.mem_reverse.mp hc)
  | cons a rest ih =>
    intro cur hcs hcur r hr c hc
    simp only [wordRunsAux] at hr
    split at hr
    case isTrue ha =>
      refine ih (a :: cur) (fun x hx hw => hcs x (List.mem_cons_of_mem a hx) hw)
        ?_ r hr c hc
      intro x hx
      rcases List.mem_cons.mp hx with rfl | hx
      · exact hcs x (List.mem_cons_self _ _) ha
      · exact hcur x hx
    case isFalse ha =>
      split at hr
      · exact ih [] (fun x hx hw => hcs x (List.mem_cons_of_mem a hx) hw)
          (by simp) r hr c hc
      · rcases List.mem_cons.mp hr with rfl | hr
        · exact hcur c (List.mem_reverse.mp hc)
        · exact ih [] (fun x hx hw => hcs x (List.mem_cons_of_mem a hx) hw)
            (by simp) r hr c hc

/-- Every character of a run of `wordRunsAux` over an empty accumulator is
a word character. -/
theorem wordRunsAux_wordChars (cs : List Char) :
    ∀ r ∈ wordRunsAux cs [], ∀ c ∈ r, isWordChar c = true :=
  wordRunsAux_pred (fun c => isWordChar c = true) cs []
    (fun _ _ hw => hw) (by simp)

/-- Every character of a run of `wordRunsAux` over a lower-cased input is
not upper case. -/
theorem wordRunsAux_lower (l : List Char) :
    ∀ r ∈ wordRunsAux (l.map Char.toLower) [], ∀ c ∈ r, c.isUpper = false := by
  refine wordRunsAux_pred (fun c => c.isUpper = false) _ []
    ?_ (by simp)
  intro c hc _
  rcases List.mem_map.mp hc with ⟨x, -, rfl⟩
  exact toLower_not_isUpper x

/-- Every key of `extract_content_tags` is a lower-cased word of at least
three word characters: no character is upper case or a space. -/
theorem extract_content_tags_keys (content : String) :
    ∀ p ∈ extract_content_tags content, ∀ c ∈ p.1.data,
      c.isUpper = false ∧ c ≠ ' ' := by
  intro p hp c hc
  simp only [extract_content_tags] at hp
  split at hp
  · simp at hp
  · rcases List.mem_filterMap.mp hp with ⟨w, hw, hsome⟩
    have hw' : w ∈ ((wordRunsAux (content.data.map Char.toLower) []).filter
        (fun r => 3 ≤ r.length)).map (fun r => (⟨r⟩ : String)) :=
      (List.dedup_subset _) hw
    rcases List.mem_map.mp hw' with ⟨r, hr, rfl⟩
    have hr' : r ∈ wordRunsAux (content.data.map Char.toLower) [] :=
      List.mem_of_mem_filter hr
    have hkey : p.1 = (⟨r⟩ : String) := by
      revert hsome
      split
      · intro h; cases h
      · split
        · intro h
          cases hsome' : h
          rfl
        · intro h; cases h
    have hcr : c ∈ r := by
      rw [hkey] at hc
      exact hc
    refine ⟨wordRunsAux_lower content.data r hr' c hcr, ?_⟩
    intro heq
    have := wordRunsAux_wordChars _ r hr' c hcr
    rw [heq] at this
    exact absurd this (by decide)

/-- A key of `bump l k v` is `k` or a key of `l`. -/
theorem bump_keys : ∀ (l : List (String × ℚ)) (k : String) (v : ℚ),
    ∀ p ∈ bump l k v, p.1 = k ∨ p.1 ∈ l.map Prod.fst := by
  intro l
  induction l with
  | nil =>
    intro k v p hp
    simp only [bump, List.mem_singleton] at hp
    subst hp
    exact Or.inl rfl
  | cons q rest ih =>
    intro k v p hp
    simp only [bump] at hp
    split at hp
    · rcases List.mem_cons.mp hp with rfl | hp
      · exact Or.inr (by simp)
      · exact Or.inr (List.mem_map_of_mem _ (List.mem_cons_of_mem q hp))
    · rcases List.mem_cons.mp hp with rfl | hp
      · exact Or.inr (by simp)
      · rcases ih k v p hp with h | h
        · exact Or.inl h
        · exact Or.inr (by simp only [List.map_cons, List.mem_cons]; exact Or.inr h)

/-- `bump` preserves a property of all keys when the new key has it. -/
theorem bump_keys_pres (Q : String → Prop) (l : List (String × ℚ))
    (k : String) (v : ℚ) (hl : ∀ p ∈ l, Q p.1) (hk : Q k) :
    ∀ p ∈ bump l k v, Q p.1 := by
  intro p hp
  rcases bump_keys l k v p hp with h | h
  · exact h ▸ hk
  · rcases List.mem_map.mp h with ⟨q, hq, hq1⟩
    exact hq1 ▸ hl q hq

/-- A fold that preserves a property of all keys at each step preserves it
over any list. -/
theorem foldl_keys_pres {α : Type} (Q : String → Prop)
    (g : List (String × ℚ) → α → List (String × ℚ)) :
    ∀ (xs : List α), (∀ acc a, a ∈ xs → (∀ p ∈ acc, Q p.1) → ∀ p ∈ g acc a, Q p.1) →
      ∀ init : List (String × ℚ), (∀ p ∈ init, Q p.1) →
      ∀ p ∈ xs.foldl g init, Q p.1 := by
  intro xs
  induction xs with
  | nil => intro _ init hinit; simpa using hinit
  | cons a xs ih =>
    intro hstep init hinit
    exact ih (fun acc b hb => hstep acc b (List.mem_cons_of_mem a hb))
      (g init a) (hstep init a (List.mem_cons_self a xs) hinit)

/-- Every key accumulated by `tagScores` is free of upper-case characters
and spaces: the keys are normalised tags, the literal `"urgent"`, or
lower-cased content words. -/
theorem tagScores_keys (i : ProcessedInsight) :
    ∀ p ∈ tagScores i, ∀ c ∈ p.1.data, c.isUpper = false ∧ c ≠ ' ' := by
  have hnorm : ∀ s : String, ∀ c ∈ (normalize_tag s).data,
      c.isUpper = false ∧ c ≠ ' ' :=
    fun s c hc => tagChar_safe c (normalize_tag_chars s c hc)
  have h1 : ∀ p ∈ tagScoresCat i, ∀ c ∈ p.1.data,
      c.isUpper = false ∧ c ≠ ' ' := by
    unfold tagScoresCat
    cases i.primary_category with
    | none => simp
    | some cat =>
      exact bump_keys_pres (fun t => ∀ c ∈ t.data, c.isUpper = false ∧ c ≠ ' ')
        _ _ _ (by simp) (hnorm _)
  have h2 : ∀ p ∈ tagScoresClass i, ∀ c ∈ p.1.data,
      c.isUpper = false ∧ c ≠ ' ' := by
    unfold tagScoresClass
    exact foldl_keys_pres (fun t => ∀ c ∈ t.data, c.isUpper = false ∧ c ≠ ' ')
      _ i.classifications
      (fun acc c _ hacc => bump_keys_pres (fun t => ∀ c ∈ t.data, c.isUpper = false ∧ c ≠ ' ') acc _ _ hacc (hnorm _)) _ h1
  have h3 : ∀ p ∈ tagScoresEnt i, ∀ c ∈ p.1.data,
      c.isUpper = false ∧ c ≠ ' ' := by
    unfold tagScoresEnt
    refine foldl_keys_pres (fun t => ∀ c ∈ t.data, c.isUpper = false ∧ c ≠ ' ')
      _ i.entities ?_ _ h2
    intro acc e _ hacc p hp
    simp only at hp
    split at hp
    · exact bump_keys_pres (fun t => ∀ c ∈ t.data, c.isUpper = false ∧ c ≠ ' ')
        acc _ _ hacc (hnorm _) p hp
    · exact hacc p hp
  have h4 : ∀ p ∈ tagScoresIntent i, ∀ c ∈ p.1.data,
      c.isUpper = false ∧ c ≠ ' ' := by
    unfold tagScoresIntent
    cases i.intent with
    | none => exact h3
    | some it =>
      exact bump_keys_pres (fun t => ∀ c ∈ t.data, c.isUpper = false ∧ c ≠ ' ')
        _ _ _ h3 (hnorm _)
  have h5 : ∀ p ∈ tagScoresSent i, ∀ c ∈ p.1.data,
      c.isUpper = false ∧ c ≠ ' ' := by
    unfold tagScoresSent
    cases i.sentiment with
    | none => exact h4
    | some s =>
      dsimp only
      have hl : ∀ p ∈ (if s.urgency = .high ∨ s.urgency = .critical
          then bump (tagScoresIntent i) "urgent" 0.8 else tagScoresIntent i),
          ∀ c ∈ p.1.data, c.isUpper = false ∧ c ≠ ' ' := by
        split
        · exact bump_keys_pres (fun t => ∀ c ∈ t.data, c.isUpper = false ∧ c ≠ ' ')
            _ _ _ h4 (by decide)
        · exact h4
      cases s.emotional_tone with
      | none => exact hl
      | some tone =>
        dsimp only
        split
        · exact bump_keys_pres (fun t => ∀ c ∈ t.data, c.isUpper = false ∧ c ≠ ' ')
            _ _ _ hl (hnorm _)
        · exact hl
  unfold tagScores
  exact foldl_keys_pres (fun t => ∀ c ∈ t.data, c.isUpper = false ∧ c ≠ ' ')
    _ _ (fun acc ts hts hacc => bump_keys_pres (fun t => ∀ c ∈ t.data, c.isUpper = false ∧ c ≠ ' ') acc _ _ hacc
      (extract_content_tags_keys i.original_content ts hts)) _ h5

/-- C6. `generate_tags` returns at most `max_tags` tags, and every
returned tag has no upper-case character and no space, has length at least
two, and is not a stop word. -/
theorem generate_tags_invariants (m : EnrichmentModule) (i : ProcessedInsight) :
    (m.generate_tags i).length ≤ m.max_tags
      ∧ ∀ t ∈ m.generate_tags i,
          (∀ c ∈ t.data, c.isUpper = false ∧ c ≠ ' ')
            ∧ 2 ≤ t.length ∧ t ∉ stop_words := by
  constructor
  · unfold EnrichmentModule.generate_tags
    exact List.length_take_le _ _
  · intro t ht
    unfold EnrichmentModule.generate_tags at ht
    have h1 := List.take_subset _ _ ht
    rcases List.mem_map.mp h1 with ⟨p, hp, rfl⟩
    rw [List.mem_mergeSort] at hp
    rw [List.mem_filter] at hp
    obtain ⟨hmem, hcond⟩ := hp
    simp only [decide_eq_true_eq] at hcond
    obtain ⟨-, hstop, hlen⟩ := hcond
    exact ⟨tagScores_keys i p hmem, hlen, hstop⟩

/-- Equal content hashes make two insights duplicates (the exact-match
fast path of `is_duplicate`). -/
theorem is_duplicate_of_hash_eq (d : DuplicateDetector)
    (a b : ProcessedInsight)
    (h : calculate_content_hash a.original_content
      = calculate_content_hash b.original_content) : d.is_duplicate a b := by
  simp only [DuplicateDetector.is_duplicate]
  rw [if_pos h]
  trivial

/-- Non-duplicates have distinct content hashes. -/
theorem hash_ne_of_not_dup (d : DuplicateDetector) (a b : ProcessedInsight)
    (h : ¬ d.is_duplicate a b) :
    calculate_content_hash a.original_content
      ≠ calculate_content_hash b.original_content :=
  fun heq => h (is_duplicate_of_hash_eq d a b heq)

/-- The deduplication loop returns a subsequence of its input. -/
theorem dedupAux_sublist (d : DuplicateDetector) :
    ∀ (L unique : List ProcessedInsight) (seen : List String),
      (dedupAux d L unique seen).Sublist L := by
  intro L
  induction L with
  | nil => intro unique seen; simp [dedupAux]
  | cons i rest ih =>
    intro unique seen
    simp only [dedupAux]
    split_ifs with h1 h2
    · exact (ih unique seen).cons i
    · exact (ih unique seen).cons i
    · exact (ih (unique ++ [i]) (seen ++ [calculate_content_hash i.original_content])).cons₂ i

/-- Every insight emitted by the deduplication loop has a hash outside the
seen set and is not a duplicate of any already-accepted insight. -/
theorem dedupAux_sound (d : DuplicateDetector) :
    ∀ (L unique : List ProcessedInsight) (seen : List String),
      ∀ x ∈ dedupAux d L unique seen,
        calculate_content_hash x.original_content ∉ seen
          ∧ ∀ y ∈ unique, ¬ d.is_duplicate x y := by
  intro L
  induction L with
  | nil => intro unique seen x hx; simp [dedupAux] at hx
  | cons i rest ih =>
    intro unique seen x hx
    simp only [dedupAux] at hx
    split_ifs at hx with h1 h2
    · exact ih unique seen x hx
    · exact ih unique seen x hx
    · rcases List.mem_cons.mp hx with rfl | hx
      · refine ⟨h1, ?_⟩
        intro y hy hdup
        exact h2 ⟨y, hy, hdup⟩
      · have := ih (unique ++ [i])
          (seen ++ [calculate_content_hash i.original_content]) x hx
        refine ⟨fun hs => this.1 (List.mem_append_left _ hs), ?_⟩
        intro y hy
        exact this.2 y (List.mem_append_left _ hy)

/-- No emitted insight is a duplicate of an earlier emitted one. -/
theorem dedupAux_pairwise (d : DuplicateDetector) :
    ∀ (L unique : List ProcessedInsight) (seen : List String),
      (dedupAux d L unique seen).Pairwise
        (fun a b => ¬ d.is_duplicate b a) := by
  intro L
  induction L with
  | nil => intro unique seen; simp [dedupAux]
  | cons i rest ih =>
    intro unique seen
    simp only [dedupAux]
    split_ifs with h1 h2
    · exact ih unique seen
    · exact ih unique seen
    · refine List.Pairwise.cons ?_ (ih _ _)
      intro b hb
      exact (dedupAux_sound d rest _ _ b hb).2 i
        (List.mem_append_right _ (List.mem_singleton_self i))

/-- The deduplication loop leaves a list unchanged when no element's hash
is already seen, no element duplicates an already-accepted insight, and no
element duplicates an earlier element of the list. -/
theorem dedupAux_fixpoint (d : DuplicateDetector) :
    ∀ (out unique : List ProcessedInsight) (seen : List String),
      (∀ x ∈ out, calculate_content_hash x.original_content ∉ seen
        ∧ ∀ y ∈ unique, ¬ d.is_duplicate x y) →
      out.Pairwise (fun a b => ¬ d.is_duplicate b a) →
      dedupAux d out unique seen = out := by
  intro out
  induction out with
  | nil => intro unique seen _ _; simp [dedupAux]
  | cons x rest ih =>
    intro unique seen hcond hpw
    have hx := hcond x (List.mem_cons_self x rest)
    rw [List.pairwise_cons] at hpw
    simp only [dedupAux]
    rw [if_neg hx.1]
    rw [if_neg (by rintro ⟨y, hy, hdup⟩; exact hx.2 y hy hdup)]
    congr 1
    refine ih _ _ ?_ hpw.2
    intro z hz
    have hzc := hcond z (List.mem_cons_of_mem x hz)
    have hzx : ¬ d.is_duplicate z x := hpw.1 z hz
    constructor
    · intro hs
      rcases List.mem_append.mp hs with hs | hs
      · exact hzc.1 hs
      · exact hash_ne_of_not_dup d z x hzx (List.mem_singleton.mp hs)
    · intro y hy
      rcases List.mem_append.mp hy with hy | hy
      · exact hzc.2 y hy
      · rw [List.mem_singleton.mp hy]
        exact hzx

/-- Every input insight is either kept by the deduplication loop or is a
duplicate of an accepted or kept insight, provided every seen hash belongs
to an accepted insight. -/
theorem dedupAux_complete (d : DuplicateDetector) :
    ∀ (L unique : List ProcessedInsight) (seen : List String),
      (∀ h ∈ seen, ∃ y ∈ unique, calculate_content_hash y.original_content = h) →
      ∀ i ∈ L, i ∈ dedupAux d L unique seen
        ∨ ∃ y, (y ∈ unique ∨ y ∈ dedupAux d L unique seen) ∧ d.is_duplicate i y := by
  intro L
  induction L with
  | nil => intro unique seen _ i hi; simp at hi
  | cons a rest ih =>
    intro unique seen hseen i hi
    simp only [dedupAux]
    split_ifs with h1 h2
    · rcases List.mem_cons.mp hi with rfl | hi
      · obtain ⟨y, hy, hyh⟩ := hseen _ h1
        exact Or.inr ⟨y, Or.inl hy, is_duplicate_of_hash_eq d i y hyh.symm⟩
      · exact ih unique seen hseen i hi
    · rcases List.mem_cons.mp hi with rfl | hi
      · obtain ⟨y, hy, hdup⟩ := h2
        exact Or.inr ⟨y, Or.inl hy, hdup⟩
      · exact ih unique seen hseen i hi
    · rcases List.mem_cons.mp hi with rfl | hi
      · exact Or.inl (List.mem_cons_self _ _)
      · have hseen' : ∀ h ∈ seen ++ [calculate_content_hash a.original_content],
            ∃ y ∈ unique ++ [a], calculate_content_hash y.original_content = h := by
          intro h hh
          rcases List.mem_append.mp hh with hh | hh
          · obtain ⟨y, hy, hyh⟩ := hseen h hh
            exact ⟨y, List.mem_append_left _ hy, hyh⟩
          · exact ⟨a, List.mem_append_right _ (List.mem_singleton_self a),
              (List.mem_singleton.mp hh) ▸ rfl⟩
        rcases ih (unique ++ [a])
            (seen ++ [calculate_content_hash a.original_content]) hseen' i hi
          with hk | ⟨y, hy, hdup⟩
        · exact Or.inl (List.mem_cons_of_mem a hk)
        · rcases hy with hy | hy
          · rcases List.mem_append.mp hy with hy | hy
            · exact Or.inr ⟨y, Or.inl hy, hdup⟩
            · exact Or.inr ⟨y, Or.inr (List.mem_singleton.mp hy ▸
                List.mem_cons_self a _), hdup⟩
          · exact Or.inr ⟨y, Or.inr (List.mem_cons_of_mem a hy), hdup⟩

/-- C3, amended. `deduplicate_list` is idempotent and returns a
subsequence of its input in which no two kept insights are duplicates of
each other, and every input insight is either kept or a duplicate of some
kept insight.  (The kept representative of a cluster of mutual duplicates
need not be the cluster's first occurrence: when the first occurrence is
itself rejected as a duplicate of an earlier kept insight outside the
cluster, a later member of the cluster may be the one kept — see the
counterexample.) -/
theorem deduplicate_list_spec (d : DuplicateDetector)
    (L : List ProcessedInsight) :
    d.deduplicate_list (d.deduplicate_list L) = d.deduplicate_list L
      ∧ (d.deduplicate_list L).Sublist L
      ∧ (d.deduplicate_list L).Pairwise (fun a b => ¬ d.is_duplicate b a)
      ∧ ∀ i ∈ L, i ∈ d.deduplicate_list L
          ∨ ∃ y ∈ d.deduplicate_list L, d.is_duplicate i y := by
  refine ⟨?_, dedupAux_sublist d L [] [], dedupAux_pairwise d L [] [], ?_⟩
  · unfold DuplicateDetector.deduplicate_list
    refine dedupAux_fixpoint d _ [] [] ?_ (dedupAux_pairwise d L [] [])
    intro x _
    exact ⟨by simp, by simp⟩
  · intro i hi
    rcases dedupAux_complete d L [] [] (by simp) i hi with hk | ⟨y, hy, hdup⟩
    · exact Or.inl hk
    · rcases hy with hy | hy
      · simp at hy
      · exact Or.inr ⟨y, hy, hdup⟩

/-- Jaccard similarity of the two counterexample contents: they share 9 of
11 distinct words. -/
theorem sim_exA_exB :
    calculate_similarity exA.original_content exB.original_content = 9/11 := by
  unfold calculate_similarity
  rw [if_neg (by decide :
    ¬ (get_word_set exA.original_content = ∅
      ∨ get_word_set exB.original_content = ∅))]
  rw [if_pos (by decide :
    (get_word_set exA.original_content ∪ get_word_set exB.original_content).card > 0)]
  rw [(by decide :
    (get_word_set exA.original_content ∩ get_word_set exB.original_content).card = 9)]
  rw [(by decide :
    (get_word_set exA.original_content ∪ get_word_set exB.original_content).card = 11)]
  norm_num

/-- Jaccard similarity of the counterexample contents, reversed. -/
theorem sim_exB_exE :
    calculate_similarity exB.original_content exE.original_content = 9/11 := by
  unfold calculate_similarity
  rw [if_neg (by decide :
    ¬ (get_word_set exB.original_content = ∅
      ∨ get_word_set exE.original_content = ∅))]
  rw [if_pos (by decide :
    (get_word_set exB.original_content ∪ get_word_set exE.original_content).card > 0)]
  rw [(by decide :
    (get_word_set exB.original_content ∩ get_word_set exE.original_content).card = 9)]
  rw [(by decide :
    (get_word_set exB.original_content ∪ get_word_set exE.original_content).card = 11)]
  norm_num

/-- Cosine similarity of the two counterexample contents: dot product 9
over magnitudes √10·√10. -/
theorem cos_exA_exB :
    calculate_cosine_similarity exA.original_content exB.original_content
      = 9/10 := by
  unfold calculate_cosine_similarity
  rw [if_neg (by decide :
    ¬ (wordList exA.original_content = [] ∨ wordList exB.original_content = []))]
  rw [(by decide :
    tfDot (wordList exA.original_content) (wordList exB.original_content) = 9)]
  rw [(by decide : tfMagSq (wordList exA.original_content) = 10)]
  rw [(by decide : tfMagSq (wordList exB.original_content) = 10)]
  rw [if_neg (by
    rintro (h | h) <;> exact absurd h (Real.sqrt_ne_zero'.mpr (by norm_num)))]
  rw [Real.mul_self_sqrt (by norm_num : (0:ℝ) ≤ ((10:ℕ):ℝ))]
  norm_num

/-- Cosine similarity of the counterexample contents, reversed. -/
theorem cos_exB_exE :
    calculate_cosine_similarity exB.original_content exE.original_content
      = 9/10 := by
  unfold calculate_cosine_similarity
  rw [if_neg (by decide :
    ¬ (wordList exB.original_content = [] ∨ wordList exE.original_content = []))]
  rw [(by decide :
    tfDot (wordList exB.original_content) (wordList exE.original_content) = 9)]
  rw [(by decide : tfMagSq (wordList exB.original_content) = 10)]
  rw [(by decide : tfMagSq (wordList exE.original_content) = 10)]
  rw [if_neg (by
    rintro (h | h) <;> exact absurd h (Real.sqrt_ne_zero'.mpr (by norm_num)))]
  rw [Real.mul_self_sqrt (by norm_num : (0:ℝ) ≤ ((10:ℕ):ℝ))]
  norm_num

/-- The counterexample insights `exA` and `exB` share their single entity
key. -/
theorem ent_exA_exB : calculate_entity_overlap exA exB = 1 := by
  unfold calculate_entity_overlap
  rw [if_neg (by decide : ¬ (entityKeySet exA = ∅ ∨ entityKeySet exB = ∅))]
  rw [if_pos (by decide : (entityKeySet exA ∪ entityKeySet exB).card > 0)]
  rw [(by decide : (entityKeySet exA ∩ entityKeySet exB).card = 1)]
  rw [(by decide : (entityKeySet exA ∪ entityKeySet exB).card = 1)]
  norm_num

/-- `exE` has no entities, so its entity overlap with `exB` is zero. -/
theorem ent_exB_exE : calculate_entity_overlap exB exE = 0 := by
  unfold calculate_entity_overlap
  rw [if_pos (by decide : entityKeySet exB = ∅ ∨ entityKeySet exE = ∅)]

/-- `exA` and `exB` are near duplicates under the default thresholds:
their combined score is `0.4·9/11 + 0.4·9/10 + 0.2·1 ≈ 0.887 ≥ 0.8`. -/
theorem isdup_exA_exB : ddDefault.is_duplicate exA exB := by
  simp only [DuplicateDetector.is_duplicate]
  rw [if_neg (by decide :
    ¬ (calculate_content_hash exA.original_content
      = calculate_content_hash exB.original_content))]
  rw [sim_exA_exB]
  rw [if_neg (by norm_num [ddDefault] :
    ¬ ((9 : ℚ)/11 < ddDefault.min_word_overlap))]
  rw [cos_exA_exB, ent_exA_exB]
  simp only [ddDefault]
  push_cast
  norm_num

/-- The near-duplicate relation of the counterexample holds in the reverse
direction as well. -/
theorem isdup_exB_exA : ddDefault.is_duplicate exB exA := by
  simp only [DuplicateDetector.is_duplicate]
  rw [if_neg (by decide :
    ¬ (calculate_content_hash exB.original_content
      = calculate_content_hash exA.original_content))]
  rw [(by exact sim_exB_exE :
    calculate_similarity exB.original_content exA.original_content = 9/11)]
  rw [if_neg (by norm_num [ddDefault] :
    ¬ ((9 : ℚ)/11 < ddDefault.min_word_overlap))]
  rw [(by exact cos_exB_exE :
    calculate_cosine_similarity exB.original_content exA.original_content = 9/10)]
  rw [(by
    unfold calculate_entity_overlap
    rw [if_neg (by decide : ¬ (entityKeySet exB = ∅ ∨ entityKeySet exA = ∅))]
    rw [if_pos (by decide : (entityKeySet exB ∪ entityKeySet exA).card > 0)]
    rw [(by decide : (entityKeySet exB ∩ entityKeySet exA).card = 1)]
    rw [(by decide : (entityKeySet exB ∪ entityKeySet exA).card = 1)]
    norm_num : calculate_entity_overlap exB exA = 1)]
  simp only [ddDefault]
  push_cast
  norm_num

/-- `exB` is not a duplicate of `exE`: without entity overlap the combined
score `0.4·9/11 + 0.4·9/10 ≈ 0.687` stays below the `0.8` threshold. -/
theorem not_isdup_exB_exE : ¬ ddDefault.is_duplicate exB exE := by
  simp only [DuplicateDetector.is_duplicate]
  rw [if_neg (by decide :
    ¬ (calculate_content_hash exB.original_content
      = calculate_content_hash exE.original_content))]
  rw [sim_exB_exE]
  rw [if_neg (by norm_num [ddDefault] :
    ¬ ((9 : ℚ)/11 < ddDefault.min_word_overlap))]
  rw [cos_exB_exE, ent_exB_exE]
  simp only [ddDefault]
  push_cast
  norm_num

/-- Running `deduplicate_list` on the counterexample list keeps `exE`
(first), drops `exA` (hash-identical to the kept `exE`), and keeps `exB`
(not a duplicate of `exE`). -/
theorem dedup_eval :
    ddDefault.deduplicate_list [exE, exA, exB] = [exE, exB] := by
  unfold DuplicateDetector.deduplicate_list
  rw [dedupAux]
  rw [if_neg (by simp : ¬ (calculate_content_hash exE.original_content ∈ ([] : List String)))]
  rw [if_neg (by simp : ¬ ∃ existing ∈ ([] : List ProcessedInsight),
    ddDefault.is_duplicate exE existing)]
  rw [dedupAux]
  rw [if_pos (by
    simp only [List.nil_append, List.mem_singleton]
    decide : calculate_content_hash exA.original_content
      ∈ ([] : List String) ++ [calculate_content_hash exE.original_content])]
  rw [dedupAux]
  rw [if_neg (by
    simp only [List.nil_append, List.mem_singleton]
    decide : ¬ (calculate_content_hash exB.original_content
      ∈ ([] : List String) ++ [calculate_content_hash exE.original_content]))]
  rw [if_neg (by
    simp only [List.nil_append, List.mem_singleton]
    rintro ⟨y, rfl, hdup⟩
    exact not_isdup_exB_exE hdup :
    ¬ ∃ existing ∈ ([] : List ProcessedInsight) ++ [exE],
      ddDefault.is_duplicate exB existing)]
  rw [dedupAux]

/-- C3, counterexample. `exA` and `exB` are mutual duplicates, yet on the
list `[exE, exA, exB]` the cluster's first occurrence `exA` is dropped
(its hash matches the earlier kept `exE`, which is not a duplicate of
`exB`) and the later member `exB` is the one kept — refuting the claim
that the first occurrence of every mutual-duplicate cluster is kept. -/
theorem deduplicate_first_occurrence_counterexample :
    ddDefault.is_duplicate exA exB ∧ ddDefault.is_duplicate exB exA
      ∧ ddDefault.deduplicate_list [exE, exA, exB] = [exE, exB]
      ∧ exA ∉ ddDefault.deduplicate_list [exE, exA, exB]
      ∧ exB ∈ ddDefault.deduplicate_list [exE, exA, exB] := by
  refine ⟨isdup_exA_exB, isdup_exB_exA, dedup_eval, ?_, ?_⟩
  · rw [dedup_eval]
    decide
  · rw [dedup_eval]
    decide
